import Mathlib

/- Shallow embedding of xapian-core/weight/tfidfweight.cc (Xapian::TfIdfWeight).

   Machine doubles are modelled as real numbers; the configuration
   parameters slope and delta (which are only stored, compared with 0 and
   serialised) are modelled as rationals so that construction and the
   serialisation codec stay executable.  Xapian::termcount and
   Xapian::doccount are modelled as Nat. -/

/-- Modelled from the spec: the statistic kinds of the requirement registry
(the Weight::stat_flags constants TERMFREQ, COLLECTION_SIZE, ... are
declared in xapian/weight.h, which is not in src/; the spec lists exactly
these ten kinds in its StatRequirement set). -/
inductive Stat where
  | TERMFREQ
  | COLLECTION_SIZE
  | WDF
  | WDF_MAX
  | WQF
  | AVERAGE_LENGTH
  | DOC_LENGTH
  | DOC_LENGTH_MIN
  | DOC_LENGTH_MAX
  | UNIQUE_TERMS
deriving DecidableEq

/-- Modelled from the spec: the scoped enum TfIdfWeight::wdf_norm is
declared in xapian/weight.h (not in src/) with underlying type unsigned
char; we model a tag as its raw byte value and fix distinct byte values
for the six documented variants. -/
def wdf_norm.NONE : ℕ := 1

def wdf_norm.BOOLEAN : ℕ := 2

def wdf_norm.SQUARE : ℕ := 3

def wdf_norm.LOG : ℕ := 4

def wdf_norm.PIVOTED : ℕ := 5

def wdf_norm.LOG_AVERAGE : ℕ := 6

/-- Modelled from the spec: the scoped enum TfIdfWeight::idf_norm from
xapian/weight.h (not in src/), as raw byte values, distinct per variant. -/
def idf_norm.NONE : ℕ := 1

def idf_norm.TFIDF : ℕ := 2

def idf_norm.PROB : ℕ := 3

def idf_norm.FREQ : ℕ := 4

def idf_norm.SQUARE : ℕ := 5

def idf_norm.PIVOTED : ℕ := 6

/-- Modelled from the spec: the scoped enum TfIdfWeight::wt_norm from
xapian/weight.h (not in src/); only NONE exists. -/
def wt_norm.NONE : ℕ := 1

/-- Corpus and query statistics supplied by the query executor through the
Weight base-class accessors get_wqf, get_termfreq, get_collection_size,
get_wdf_upper_bound, get_doclength_lower_bound and get_average_length
(declared in xapian/weight.h). -/
structure Stats where
  wqf : ℕ
  termfreq : ℕ
  collection_size : ℕ
  wdf_upper_bound : ℕ
  doclength_lower_bound : ℕ
  average_length : ℚ
deriving DecidableEq

/-- Configuration of a TfIdfWeight instance: the three normalisation tags,
the two parameters, and the statistic requirements registered by the
constructor via need_stat. -/
structure TfIdfWeight where
  wdf_norm_ : ℕ
  idf_norm_ : ℕ
  wt_norm_ : ℕ
  param_slope : ℚ
  param_delta : ℚ
  stats_needed : List Stat
deriving DecidableEq

/-- Modelled from the spec: the RuntimeState of the scheme (the wqf_factor
and idfn members of TfIdfWeight declared in xapian/weight.h, not in
src/). -/
structure RState where
  wqf_factor : ℝ
  idfn : ℝ

/-- Modelled from the spec: the default RuntimeState, which makes every
per-term contribution zero (spec sections 3 and 4.3). -/
def initRState : RState := ⟨0, 0⟩

/-- Errors thrown by the embedded code: Xapian::InvalidArgumentError and
Xapian::SerialisationError. -/
inductive XapianError where
  | invalidArgument
  | serialisationError
deriving DecidableEq

/-- Decide whether a construction result is a live instance. -/
def ctorOk (e : Except XapianError TfIdfWeight) : Bool :=
  match e with
  | .ok _ => true
  | .error _ => false

/-- Statistic requirements registered by the enum constructor
TfIdfWeight::TfIdfWeight(wdf_norm, idf_norm, wt_norm, double, double)
(tfidfweight.cc lines 130-147), in the order of the need_stat calls. -/
def enumStats (wdf_normalization idf_normalization : ℕ) : List Stat :=
  (if idf_normalization ≠ idf_norm.NONE then [Stat.TERMFREQ, Stat.COLLECTION_SIZE] else [])
  ++ [Stat.WDF, Stat.WDF_MAX, Stat.WQF]
  ++ (if wdf_normalization = wdf_norm.PIVOTED ∨ idf_normalization = idf_norm.PIVOTED then
        [Stat.AVERAGE_LENGTH, Stat.DOC_LENGTH, Stat.DOC_LENGTH_MIN] else [])
  ++ (if wdf_normalization = wdf_norm.LOG_AVERAGE then
        [Stat.DOC_LENGTH, Stat.DOC_LENGTH_MIN, Stat.DOC_LENGTH_MAX, Stat.UNIQUE_TERMS] else [])

/-- The enum constructor (tfidfweight.cc lines 119-148): validates slope
then delta, registers the statistics, stores the tags unchecked. -/
def TfIdfWeight.ofEnum (wdf_normalization idf_normalization wt_normalization : ℕ)
    (slope delta : ℚ) : Except XapianError TfIdfWeight :=
  if slope ≤ 0 then .error .invalidArgument
  else if delta ≤ 0 then .error .invalidArgument
  else .ok ⟨wdf_normalization, idf_normalization, wt_normalization, slope, delta,
            enumStats wdf_normalization idf_normalization⟩

/-- The NUL character, which C strchr also matches (it is the terminator of
the set string). -/
def nulChar : Char := Char.ofNat 0

/-- C strchr(set, c) viewed as a predicate: it finds c in the set string or
at the terminating NUL. -/
def strchrFound (s : List Char) (c : Char) : Prop := c ∈ s ∨ c = nulChar

instance (s : List Char) (c : Char) : Decidable (strchrFound s c) :=
  inferInstanceAs (Decidable (c ∈ s ∨ c = nulChar))

/-- The switch on normals[0] (tfidfweight.cc lines 72-90). -/
def charToWdf (c : Char) : ℕ :=
  if c = 'b' then wdf_norm.BOOLEAN
  else if c = 's' then wdf_norm.SQUARE
  else if c = 'l' then wdf_norm.LOG
  else if c = 'P' then wdf_norm.PIVOTED
  else if c = 'L' then wdf_norm.LOG_AVERAGE
  else wdf_norm.NONE

/-- The switch on normals[1] (tfidfweight.cc lines 91-109). -/
def charToIdf (c : Char) : ℕ :=
  if c = 'n' then idf_norm.NONE
  else if c = 's' then idf_norm.SQUARE
  else if c = 'f' then idf_norm.FREQ
  else if c = 'P' then idf_norm.PIVOTED
  else if c = 'p' then idf_norm.PROB
  else idf_norm.TFIDF

/-- Statistic requirements registered by the string constructor
(tfidfweight.cc lines 54-71), gated on the characters of normals. -/
def normalsStats (normals : List Char) : List Stat :=
  (if normals.getD 1 nulChar ≠ 'n' then [Stat.TERMFREQ, Stat.COLLECTION_SIZE] else [])
  ++ [Stat.WDF, Stat.WDF_MAX, Stat.WQF]
  ++ (if normals.getD 0 nulChar = 'P' ∨ normals.getD 1 nulChar = 'P' then
        [Stat.AVERAGE_LENGTH, Stat.DOC_LENGTH, Stat.DOC_LENGTH_MIN] else [])
  ++ (if normals.getD 0 nulChar = 'L' then
        [Stat.DOC_LENGTH, Stat.DOC_LENGTH_MIN, Stat.DOC_LENGTH_MAX, Stat.UNIQUE_TERMS] else [])

/-- The string constructor TfIdfWeight::TfIdfWeight(const std::string&,
double, double) (tfidfweight.cc lines 42-111).  The length test
short-circuits, so the character tests only see strings of length 3; out
of range getD defaults are never the deciding case. -/
def TfIdfWeight.ofNormals (normals : List Char) (slope delta : ℚ) :
    Except XapianError TfIdfWeight :=
  if normals.length ≠ 3 ∨
     ¬ strchrFound ['n', 'b', 's', 'l', 'P', 'L'] (normals.getD 0 nulChar) ∨
     ¬ strchrFound ['n', 't', 'p', 'f', 's', 'P'] (normals.getD 1 nulChar) ∨
     ¬ strchrFound ['n'] (normals.getD 2 nulChar) then
    .error .invalidArgument
  else if slope ≤ 0 then .error .invalidArgument
  else if delta ≤ 0 then .error .invalidArgument
  else .ok ⟨charToWdf (normals.getD 0 nulChar), charToIdf (normals.getD 1 nulChar),
            wt_norm.NONE, slope, delta, normalsStats normals⟩

/-- Modelled from the spec: one item of the serialised byte stream.
serialise_double / unserialise_double live in serialise-double.cc, which is
not in src/; per spec section 4.8 the stream is the canonical double
encoding of slope, then of delta, then three single tag bytes, so we model
a serialised double as one atomic stream item. -/
inductive SerialItem where
  | dbl (x : ℚ)
  | byte (b : ℕ)
deriving DecidableEq

/-- TfIdfWeight::serialise (tfidfweight.cc lines 182-191): slope, delta,
then the three tags each cast to a single unsigned char. -/
def TfIdfWeight.serialise (w : TfIdfWeight) : List SerialItem :=
  [SerialItem.dbl w.param_slope, SerialItem.dbl w.param_delta,
   SerialItem.byte (w.wdf_norm_ % 256), SerialItem.byte (w.idf_norm_ % 256),
   SerialItem.byte (w.wt_norm_ % 256)]

/-- TfIdfWeight::unserialise (tfidfweight.cc lines 193-207): read two
doubles, read three tag bytes, throw SerialisationError unless the stream
was consumed exactly, then run the enum constructor. -/
def TfIdfWeight.unserialise (s : List SerialItem) : Except XapianError TfIdfWeight :=
  match s with
  | SerialItem.dbl slope :: SerialItem.dbl delta :: SerialItem.byte b1 ::
      SerialItem.byte b2 :: SerialItem.byte b3 :: rest =>
    if rest ≠ [] then .error .serialisationError
    else TfIdfWeight.ofEnum b1 b2 b3 slope delta
  | _ => .error .serialisationError

/-- Decide whether a stream is exactly the layout double, double, byte,
byte, byte. -/
def exactLayout (s : List SerialItem) : Bool :=
  match s with
  | [SerialItem.dbl _, SerialItem.dbl _, SerialItem.byte _, SerialItem.byte _,
     SerialItem.byte _] => true
  | _ => false

/-- Decide whether a result is a SerialisationError. -/
def isSerError (e : Except XapianError TfIdfWeight) : Bool :=
  match e with
  | .error .serialisationError => true
  | _ => false

/-- TfIdfWeight::get_idfn (tfidfweight.cc lines 280-305), dispatching on
the raw tag value exactly as the C++ switch does; the default branch
catches every tag that is not one of the five named cases. -/
noncomputable def TfIdfWeight.get_idfn (st : Stats) (idf_normalization : ℕ) : ℝ :=
  let termfreq : ℕ := if idf_normalization ≠ idf_norm.NONE then st.termfreq else 1
  let N : ℝ := if idf_normalization ≠ idf_norm.NONE ∧ idf_normalization ≠ idf_norm.FREQ
               then (st.collection_size : ℝ) else 1
  if idf_normalization = idf_norm.NONE then 1
  else if idf_normalization = idf_norm.PROB then
    if N = (termfreq : ℝ) then 0 else Real.log ((N - (termfreq : ℝ)) / (termfreq : ℝ))
  else if idf_normalization = idf_norm.FREQ then 1 / (termfreq : ℝ)
  else if idf_normalization = idf_norm.SQUARE then (Real.log (N / (termfreq : ℝ))) ^ 2
  else if idf_normalization = idf_norm.PIVOTED then Real.log ((N + 1) / (termfreq : ℝ))
  else Real.log (N / (termfreq : ℝ))

/-- TfIdfWeight::get_wdfn (tfidfweight.cc lines 241-278), dispatching on
the raw tag value exactly as the C++ switch does; the default branch
(identity) catches every tag that is not one of the five named cases. -/
noncomputable def TfIdfWeight.get_wdfn (w : TfIdfWeight) (st : Stats)
    (wdf doclen uniqterms : ℕ) (wdf_normalization : ℕ) : ℝ :=
  if wdf_normalization = wdf_norm.BOOLEAN then
    if wdf = 0 then 0 else 1
  else if wdf_normalization = wdf_norm.SQUARE then
    ((wdf * wdf : ℕ) : ℝ)
  else if wdf_normalization = wdf_norm.LOG then
    if wdf = 0 then 0 else 1 + Real.log (wdf : ℝ)
  else if wdf_normalization = wdf_norm.PIVOTED then
    if wdf = 0 then 0 else
    (1 + Real.log (1 + Real.log (wdf : ℝ))) *
        (1 / (1 - (w.param_slope : ℝ) +
              (w.param_slope : ℝ) * ((doclen : ℝ) / (st.average_length : ℝ)))) +
      (w.param_delta : ℝ)
  else if wdf_normalization = wdf_norm.LOG_AVERAGE then
    if wdf = 0 then 0 else
    (1 + Real.log (wdf : ℝ)) /
      (1 + Real.log (if (doclen : ℝ) = 0 ∨ (uniqterms : ℝ) = 0 then 1
                     else (doclen : ℝ) / (uniqterms : ℝ)))
  else (wdf : ℝ)

/-- TfIdfWeight::get_wtn (tfidfweight.cc lines 307-312): identity. -/
def TfIdfWeight.get_wtn (wt : ℝ) (wt_normalization : ℕ) : ℝ := wt

/-- TfIdfWeight::init (tfidfweight.cc lines 157-168): a factor of exactly 0
leaves the runtime state untouched; otherwise it sets wqf_factor and
idfn. -/
noncomputable def TfIdfWeight.init (w : TfIdfWeight) (st : Stats) (factor_ : ℝ)
    (rs : RState) : RState :=
  if factor_ = 0 then rs
  else ⟨(st.wqf : ℝ) * factor_, TfIdfWeight.get_idfn st w.idf_norm_⟩

/-- TfIdfWeight::get_sumpart (tfidfweight.cc lines 209-215). -/
noncomputable def TfIdfWeight.get_sumpart (w : TfIdfWeight) (rs : RState) (st : Stats)
    (wdf doclen uniqterms : ℕ) : ℝ :=
  TfIdfWeight.get_wtn (TfIdfWeight.get_wdfn w st wdf doclen uniqterms w.wdf_norm_ * rs.idfn)
      w.wt_norm_ * rs.wqf_factor

/-- TfIdfWeight::get_maxpart (tfidfweight.cc lines 217-226): the scoring
pipeline evaluated at wdf_upper_bound, with doclength_lower_bound passed
for both the doclen and the uniqterms argument. -/
noncomputable def TfIdfWeight.get_maxpart (w : TfIdfWeight) (rs : RState) (st : Stats) : ℝ :=
  TfIdfWeight.get_wtn
      (TfIdfWeight.get_wdfn w st st.wdf_upper_bound st.doclength_lower_bound
          st.doclength_lower_bound w.wdf_norm_ * rs.idfn)
      w.wt_norm_ * rs.wqf_factor

/-- TfIdfWeight::get_sumextra (tfidfweight.cc lines 228-233). -/
def TfIdfWeight.get_sumextra (doclen uniqterms : ℕ) : ℝ := 0

/-- TfIdfWeight::get_maxextra (tfidfweight.cc lines 235-239). -/
def TfIdfWeight.get_maxextra : ℝ := 0

/-- Concrete corpus statistics with the term in three of four documents:
wqf 1, termfreq 3, collection_size 4, wdf_upper_bound 2,
doclength_lower_bound 0, average_length 1. -/
def probStats : Stats := ⟨1, 3, 4, 2, 0, 1⟩

/-- A TfIdfWeight with wdf None and idf Probabilistic, slope 1, delta 1,
exactly as the enum constructor builds it. -/
def probWeight : TfIdfWeight :=
  ⟨wdf_norm.NONE, idf_norm.PROB, wt_norm.NONE, 1, 1,
   enumStats wdf_norm.NONE idf_norm.PROB⟩

/-- The runtime state of probWeight after init with factor 1 on
probStats. -/
noncomputable def probRState : RState :=
  TfIdfWeight.init probWeight probStats 1 initRState

/-- Concrete statistics whose wdf upper bound is 0: wqf 1, termfreq 1,
collection_size 1, wdf_upper_bound 0, doclength_lower_bound 5,
average_length 1. -/
def logAvgStats : Stats := ⟨1, 1, 1, 0, 5, 1⟩

/-- A TfIdfWeight with wdf LogAverage and idf None, slope 1, delta 1. -/
def logAvgWeight : TfIdfWeight :=
  ⟨wdf_norm.LOG_AVERAGE, idf_norm.NONE, wt_norm.NONE, 1, 1,
   enumStats wdf_norm.LOG_AVERAGE idf_norm.NONE⟩

/-- The runtime state of logAvgWeight after init with factor 1 on
logAvgStats. -/
noncomputable def logAvgRState : RState :=
  TfIdfWeight.init logAvgWeight logAvgStats 1 initRState

/-- Concrete statistics with a positive wdf upper bound: wqf 1, termfreq 1,
collection_size 1, wdf_upper_bound 2, doclength_lower_bound 0,
average_length 1. -/
def logAvgStatsPos : Stats := ⟨1, 1, 1, 2, 0, 1⟩

/-- A TfIdfWeight with wdf None and idf None, slope 1, delta 1. -/
def noneWeight : TfIdfWeight :=
  ⟨wdf_norm.NONE, idf_norm.NONE, wt_norm.NONE, 1, 1,
   enumStats wdf_norm.NONE idf_norm.NONE⟩

/- ------------------------------------------------------------------ -/
/- Helper lemmas                                                      -/
/- ------------------------------------------------------------------ -/

theorem ofEnum_ok {wt it tt : ℕ} {slope delta : ℚ} {w : TfIdfWeight}
    (h : TfIdfWeight.ofEnum wt it tt slope delta = Except.ok w) :
    0 < slope ∧ 0 < delta ∧
      w = ⟨wt, it, tt, slope, delta, enumStats wt it⟩ := by
  unfold TfIdfWeight.ofEnum at h
  by_cases h1 : slope ≤ 0
  · rw [if_pos h1] at h
    exact Except.noConfusion h
  · rw [if_neg h1] at h
    by_cases h2 : delta ≤ 0
    · rw [if_pos h2] at h
      exact Except.noConfusion h
    · rw [if_neg h2] at h
      exact ⟨lt_of_not_le h1, lt_of_not_le h2, (Except.ok.inj h).symm⟩

/-- C7: for every wdf, doclen and unique_terms, the Square wdf
normalisation returns exactly the square of wdf. -/
theorem C7_square_wdfn (w : TfIdfWeight) (st : Stats) (wdf doclen uniqterms : ℕ) :
    TfIdfWeight.get_wdfn w st wdf doclen uniqterms wdf_norm.SQUARE = (wdf : ℝ) ^ 2 := by
  have hred : TfIdfWeight.get_wdfn w st wdf doclen uniqterms wdf_norm.SQUARE =
      ((wdf * wdf : ℕ) : ℝ) := rfl
  rw [hred]
  push_cast
  ring

/-- C6: calling init with factor exactly 0 leaves the runtime state
unchanged (so, starting from the default state, wqf_factor and idfn stay
at their default value 0), and get_sumpart afterwards returns 0 on every
input triple. -/
theorem C6_init_zero_noop (w : TfIdfWeight) (st : Stats) (rs : RState)
    (wdf doclen uniqterms : ℕ) :
    TfIdfWeight.init w st 0 rs = rs ∧
    initRState.wqf_factor = 0 ∧ initRState.idfn = 0 ∧
    TfIdfWeight.get_sumpart w (TfIdfWeight.init w st 0 initRState) st
      wdf doclen uniqterms = 0 := by
  refine ⟨?_, rfl, rfl, ?_⟩
  · unfold TfIdfWeight.init
    simp
  · unfold TfIdfWeight.get_sumpart TfIdfWeight.get_wtn TfIdfWeight.init
    simp [initRState]

/-- C8: for the Probabilistic idf variant, get_idfn returns exactly 0 when
termfreq equals the collection size, and otherwise (for
1 ≤ termfreq < collection_size) returns ln((N - termfreq)/termfreq), whose
argument is positive, so no division by zero or log of a non-positive
value occurs. -/
theorem C8_prob_idfn (st : Stats) :
    (st.termfreq = st.collection_size →
      TfIdfWeight.get_idfn st idf_norm.PROB = 0) ∧
    (1 ≤ st.termfreq → st.termfreq < st.collection_size →
      TfIdfWeight.get_idfn st idf_norm.PROB =
        Real.log (((st.collection_size : ℝ) - (st.termfreq : ℝ)) / (st.termfreq : ℝ)) ∧
      0 < ((st.collection_size : ℝ) - (st.termfreq : ℝ)) / (st.termfreq : ℝ)) := by
  have hred : TfIdfWeight.get_idfn st idf_norm.PROB =
      (if (st.collection_size : ℝ) = (st.termfreq : ℝ) then 0
       else Real.log (((st.collection_size : ℝ) - (st.termfreq : ℝ)) /
              (st.termfreq : ℝ))) := rfl
  constructor
  · intro h
    rw [hred, if_pos (by exact_mod_cast h.symm)]
  · intro h1 h2
    have htf : (0 : ℝ) < (st.termfreq : ℝ) := by exact_mod_cast h1
    have hlt : (st.termfreq : ℝ) < (st.collection_size : ℝ) := by exact_mod_cast h2
    rw [hred, if_neg (by exact ne_of_gt hlt)]
    exact ⟨rfl, div_pos (by linarith) htf⟩

/-- C8 witness: the two branches of C8_prob_idfn evaluated at concrete
statistics. -/
theorem C8_prob_idfn_witness :
    TfIdfWeight.get_idfn ⟨0, 2, 2, 0, 0, 1⟩ idf_norm.PROB = 0 ∧
    (TfIdfWeight.get_idfn ⟨0, 1, 3, 0, 0, 1⟩ idf_norm.PROB =
      Real.log ((((3 : ℕ) : ℝ) - ((1 : ℕ) : ℝ)) / ((1 : ℕ) : ℝ)) ∧
     0 < (((3 : ℕ) : ℝ) - ((1 : ℕ) : ℝ)) / ((1 : ℕ) : ℝ)) :=
  ⟨(C8_prob_idfn ⟨0, 2, 2, 0, 0, 1⟩).1 rfl,
   (C8_prob_idfn ⟨0, 1, 3, 0, 0, 1⟩).2 (by decide) (by decide)⟩

/-- C2: the code declares COLLECTION_SIZE needed for the Frequency idf
variant (the enum constructor gates on idf ≠ None), but get_idfn with the
Frequency variant computes 1/termfreq and its value does not depend on the
collection size, contradicting the declared-iff-read invariant. -/
theorem C2_collection_size_declared_unread :
    (TfIdfWeight.ofEnum wdf_norm.NONE idf_norm.FREQ wt_norm.NONE 1 1 =
      Except.ok ⟨wdf_norm.NONE, idf_norm.FREQ, wt_norm.NONE, 1, 1,
                 enumStats wdf_norm.NONE idf_norm.FREQ⟩) ∧
    Stat.COLLECTION_SIZE ∈ enumStats wdf_norm.NONE idf_norm.FREQ ∧
    (∀ (a tf c d e : ℕ) (q : ℚ) (a' c' d' e' : ℕ) (q' : ℚ),
      TfIdfWeight.get_idfn ⟨a, tf, c, d, e, q⟩ idf_norm.FREQ =
        TfIdfWeight.get_idfn ⟨a', tf, c', d', e', q'⟩ idf_norm.FREQ) := by
  refine ⟨rfl, by decide, ?_⟩
  intro a tf c d e q a' c' d' e' q'
  rfl

/-- C9 counterexample: for the LogAverage wdf variant with
wdf_upper_bound = 0 (term postings may be absent), get_maxpart returns 0
via the wdf = 0 branch of get_wdfn, not
(1 + ln(wdf_max)) * idfn * wqf_factor. -/
theorem C9_counterexample :
    TfIdfWeight.get_maxpart logAvgWeight logAvgRState logAvgStats ≠
      (1 + Real.log (logAvgStats.wdf_upper_bound : ℝ)) *
        logAvgRState.idfn * logAvgRState.wqf_factor := by
  have hmax : TfIdfWeight.get_maxpart logAvgWeight logAvgRState logAvgStats = 0 := by
    show TfIdfWeight.get_wtn ((0 : ℝ) * logAvgRState.idfn) wt_norm.NONE *
        logAvgRState.wqf_factor = 0
    unfold TfIdfWeight.get_wtn
    ring
  have hidfn : logAvgRState.idfn = 1 := by
    unfold logAvgRState TfIdfWeight.init
    rw [if_neg (one_ne_zero)]
    rfl
  have hwqf : logAvgRState.wqf_factor = 1 := by
    unfold logAvgRState TfIdfWeight.init
    rw [if_neg (one_ne_zero)]
    show ((logAvgStats.wqf : ℝ)) * 1 = 1
    norm_num [logAvgStats]
  rw [hmax, hidfn, hwqf]
  norm_num [logAvgStats, Real.log_zero]

/-- C9 (amended): get_maxpart is the get_sumpart pipeline evaluated at
wdf = wdf_upper_bound with doclength_lower_bound substituted for both the
doclen and the unique_terms arguments; and for the LogAverage wdf variant,
whenever wdf_upper_bound ≥ 1, the bound equals
(1 + ln(wdf_max)) * idfn * wqf_factor (for wdf_upper_bound = 0 it is 0). -/
theorem C9_maxpart_pipeline :
    (∀ (w : TfIdfWeight) (rs : RState) (st : Stats),
      TfIdfWeight.get_maxpart w rs st =
        TfIdfWeight.get_sumpart w rs st st.wdf_upper_bound
          st.doclength_lower_bound st.doclength_lower_bound) ∧
    (∀ (w : TfIdfWeight) (rs : RState) (st : Stats),
      w.wdf_norm_ = wdf_norm.LOG_AVERAGE → 1 ≤ st.wdf_upper_bound →
      TfIdfWeight.get_maxpart w rs st =
        (1 + Real.log (st.wdf_upper_bound : ℝ)) * rs.idfn * rs.wqf_factor) := by
  constructor
  · intro w rs st
    rfl
  · intro w rs st hw hub
    unfold TfIdfWeight.get_maxpart TfIdfWeight.get_wtn TfIdfWeight.get_wdfn
    rw [hw]
    rw [if_neg (by decide : wdf_norm.LOG_AVERAGE ≠ wdf_norm.BOOLEAN),
        if_neg (by decide : wdf_norm.LOG_AVERAGE ≠ wdf_norm.SQUARE),
        if_neg (by decide : wdf_norm.LOG_AVERAGE ≠ wdf_norm.LOG),
        if_neg (by decide : wdf_norm.LOG_AVERAGE ≠ wdf_norm.PIVOTED),
        if_pos rfl]
    have hub0 : st.wdf_upper_bound ≠ 0 := by omega
    rw [if_neg hub0]
    by_cases hl : (st.doclength_lower_bound : ℝ) = 0
    · rw [if_pos (Or.inl hl), Real.log_one]
      ring
    · rw [if_neg (by tauto), div_self hl, Real.log_one]
      ring

/-- C9 witness: the LogAverage bound identity at concrete statistics with
wdf_upper_bound = 2. -/
theorem C9_maxpart_pipeline_witness :
    TfIdfWeight.get_maxpart logAvgWeight logAvgRState logAvgStatsPos =
      (1 + Real.log (logAvgStatsPos.wdf_upper_bound : ℝ)) * logAvgRState.idfn *
        logAvgRState.wqf_factor :=
  C9_maxpart_pipeline.2 logAvgWeight logAvgRState logAvgStatsPos rfl (by decide)

/-- C10: the enum constructor accepts any tag values (it only validates
slope and delta), unserialise likewise accepts arbitrary tag bytes in a
well-shaped stream, get_wdfn maps every tag outside the five named wdf
cases to the identity behaviour, and get_idfn maps every tag outside the
five named idf cases to the TfIdf behaviour ln(N/termfreq). -/
theorem C10_total_dispatch :
    (∀ (wt it tt : ℕ) (slope delta : ℚ), 0 < slope → 0 < delta →
      ctorOk (TfIdfWeight.ofEnum wt it tt slope delta) = true) ∧
    (∀ (b1 b2 b3 : ℕ) (slope delta : ℚ), 0 < slope → 0 < delta →
      ctorOk (TfIdfWeight.unserialise
        [SerialItem.dbl slope, SerialItem.dbl delta, SerialItem.byte b1,
         SerialItem.byte b2, SerialItem.byte b3]) = true) ∧
    (∀ (w : TfIdfWeight) (st : Stats) (wdf doclen uniqterms tag : ℕ),
      tag ≠ wdf_norm.BOOLEAN → tag ≠ wdf_norm.SQUARE → tag ≠ wdf_norm.LOG →
      tag ≠ wdf_norm.PIVOTED → tag ≠ wdf_norm.LOG_AVERAGE →
      TfIdfWeight.get_wdfn w st wdf doclen uniqterms tag = (wdf : ℝ)) ∧
    (∀ (st : Stats) (tag : ℕ),
      tag ≠ idf_norm.NONE → tag ≠ idf_norm.PROB → tag ≠ idf_norm.FREQ →
      tag ≠ idf_norm.SQUARE → tag ≠ idf_norm.PIVOTED →
      TfIdfWeight.get_idfn st tag =
        Real.log ((st.collection_size : ℝ) / (st.termfreq : ℝ))) := by
  refine ⟨?_, ?_, ?_, ?_⟩
  · intro wt it tt slope delta hs hd
    unfold TfIdfWeight.ofEnum
    rw [if_neg (not_le.mpr hs), if_neg (not_le.mpr hd)]
    rfl
  · intro b1 b2 b3 slope delta hs hd
    simp only [TfIdfWeight.unserialise]
    rw [if_neg (fun hne => hne rfl)]
    unfold TfIdfWeight.ofEnum
    rw [if_neg (not_le.mpr hs), if_neg (not_le.mpr hd)]
    rfl
  · intro w st wdf doclen uniqterms tag h1 h2 h3 h4 h5
    unfold TfIdfWeight.get_wdfn
    rw [if_neg h1, if_neg h2, if_neg h3, if_neg h4, if_neg h5]
  · intro st tag h1 h2 h3 h4 h5
    simp only [TfIdfWeight.get_idfn]
    rw [if_pos (show tag ≠ idf_norm.NONE ∧ tag ≠ idf_norm.FREQ from ⟨h1, h3⟩)]
    rw [if_pos h1]
    rw [if_neg h1, if_neg h2, if_neg h3, if_neg h4, if_neg h5]

/-- C10 witness: each part of C10_total_dispatch at concrete out-of-range
tags (7 and 0). -/
theorem C10_total_dispatch_witness :
    ctorOk (TfIdfWeight.ofEnum 7 7 7 1 1) = true ∧
    ctorOk (TfIdfWeight.unserialise
      [SerialItem.dbl 1, SerialItem.dbl 1, SerialItem.byte 7, SerialItem.byte 7,
       SerialItem.byte 7]) = true ∧
    TfIdfWeight.get_wdfn noneWeight probStats 5 0 0 0 = ((5 : ℕ) : ℝ) ∧
    TfIdfWeight.get_idfn probStats 0 =
      Real.log ((probStats.collection_size : ℝ) / (probStats.termfreq : ℝ)) :=
  ⟨C10_total_dispatch.1 7 7 7 1 1 (by decide) (by decide),
   C10_total_dispatch.2.1 7 7 7 1 1 (by decide) (by decide),
   C10_total_dispatch.2.2.1 noneWeight probStats 5 0 0 0 (by decide) (by decide)
     (by decide) (by decide) (by decide),
   C10_total_dispatch.2.2.2 probStats 0 (by decide) (by decide) (by decide)
     (by decide) (by decide)⟩

/-- C3: deserialising the serialisation of any weight whose tags fit in a
byte and whose slope and delta are positive succeeds and reproduces the
configuration (tags, slope, delta) exactly. -/
theorem C3_round_trip (w : TfIdfWeight)
    (h1 : w.wdf_norm_ < 256) (h2 : w.idf_norm_ < 256) (h3 : w.wt_norm_ < 256)
    (hs : 0 < w.param_slope) (hd : 0 < w.param_delta) :
    ∃ w' : TfIdfWeight,
      TfIdfWeight.unserialise (TfIdfWeight.serialise w) = Except.ok w' ∧
      w'.wdf_norm_ = w.wdf_norm_ ∧ w'.idf_norm_ = w.idf_norm_ ∧
      w'.wt_norm_ = w.wt_norm_ ∧ w'.param_slope = w.param_slope ∧
      w'.param_delta = w.param_delta := by
  refine ⟨⟨w.wdf_norm_, w.idf_norm_, w.wt_norm_, w.param_slope, w.param_delta,
           enumStats w.wdf_norm_ w.idf_norm_⟩, ?_, rfl, rfl, rfl, rfl, rfl⟩
  unfold TfIdfWeight.serialise
  simp only [TfIdfWeight.unserialise]
  rw [if_neg (fun hne => hne rfl)]
  rw [Nat.mod_eq_of_lt h1, Nat.mod_eq_of_lt h2, Nat.mod_eq_of_lt h3]
  unfold TfIdfWeight.ofEnum
  rw [if_neg (not_le.mpr hs), if_neg (not_le.mpr hd)]

/-- C3 witness: the round trip at the concrete weight probWeight. -/
theorem C3_round_trip_witness :
    ∃ w' : TfIdfWeight,
      TfIdfWeight.unserialise (TfIdfWeight.serialise probWeight) = Except.ok w' ∧
      w'.wdf_norm_ = probWeight.wdf_norm_ ∧ w'.idf_norm_ = probWeight.idf_norm_ ∧
      w'.wt_norm_ = probWeight.wt_norm_ ∧ w'.param_slope = probWeight.param_slope ∧
      w'.param_delta = probWeight.param_delta :=
  C3_round_trip probWeight (by decide) (by decide) (by decide) (by decide)
    (by decide)

/-- C4 counterexample: the string constructor accepts the 3-character
string "nn\x00" (third character NUL) with slope 1 and delta 1, although
the claim requires failure because the third character is not the letter
n; C strchr("n", c) also matches c = NUL at the set terminator. -/
theorem C4_counterexample :
    ctorOk (TfIdfWeight.ofNormals ['n', 'n', nulChar] 1 1) = true ∧
    nulChar ≠ 'n' := by decide

/-- C4 (amended): the string constructor succeeds exactly when the code
string has length 3, each character is in its allowed set or is NUL (the
strchr terminator match), and slope and delta are positive; the enum
constructor succeeds exactly when slope and delta are positive.  On
failure no instance is produced. -/
theorem C4_construction_validation :
    (∀ (normals : List Char) (slope delta : ℚ),
      ctorOk (TfIdfWeight.ofNormals normals slope delta) = true ↔
        (normals.length = 3 ∧
         strchrFound ['n', 'b', 's', 'l', 'P', 'L'] (normals.getD 0 nulChar) ∧
         strchrFound ['n', 't', 'p', 'f', 's', 'P'] (normals.getD 1 nulChar) ∧
         strchrFound ['n'] (normals.getD 2 nulChar) ∧
         0 < slope ∧ 0 < delta)) ∧
    (∀ (wt it tt : ℕ) (slope delta : ℚ),
      ctorOk (TfIdfWeight.ofEnum wt it tt slope delta) = true ↔
        (0 < slope ∧ 0 < delta)) := by
  constructor
  · intro normals slope delta
    unfold TfIdfWeight.ofNormals
    by_cases hA : normals.length ≠ 3 ∨
        ¬ strchrFound ['n', 'b', 's', 'l', 'P', 'L'] (normals.getD 0 nulChar) ∨
        ¬ strchrFound ['n', 't', 'p', 'f', 's', 'P'] (normals.getD 1 nulChar) ∨
        ¬ strchrFound ['n'] (normals.getD 2 nulChar)
    · rw [if_pos hA]
      simp only [ctorOk, Bool.false_eq_true, false_iff]
      tauto
    · rw [if_neg hA]
      push_neg at hA
      obtain ⟨hl, hc0, hc1, hc2⟩ := hA
      by_cases hs : slope ≤ 0
      · rw [if_pos hs]
        have hs' := not_lt.mpr hs
        simp only [ctorOk, Bool.false_eq_true, false_iff]
        tauto
      · rw [if_neg hs]
        by_cases hdl : delta ≤ 0
        · rw [if_pos hdl]
          have hd' := not_lt.mpr hdl
          simp only [ctorOk, Bool.false_eq_true, false_iff]
          tauto
        · rw [if_neg hdl]
          simp only [ctorOk, true_iff]
          exact ⟨hl, hc0, hc1, hc2, lt_of_not_le hs, lt_of_not_le hdl⟩
  · intro wt it tt slope delta
    unfold TfIdfWeight.ofEnum
    by_cases hs : slope ≤ 0
    · rw [if_pos hs]
      have hs' := not_lt.mpr hs
      simp only [ctorOk, Bool.false_eq_true, false_iff]
      tauto
    · rw [if_neg hs]
      by_cases hdl : delta ≤ 0
      · rw [if_pos hdl]
        have hd' := not_lt.mpr hdl
        simp only [ctorOk, Bool.false_eq_true, false_iff]
        tauto
      · rw [if_neg hdl]
        simp only [ctorOk, true_iff]
        exact ⟨lt_of_not_le hs, lt_of_not_le hdl⟩

/-- C5: unserialise raises a SerialisationError exactly when the stream is
not of the shape double, double, byte, byte, byte (truncated streams and
streams with trailing items both fail; a well-shaped stream never raises a
SerialisationError, though non-positive slope or delta in it raises
InvalidArgumentError from the constructor instead). -/
theorem C5_ser_error_iff (s : List SerialItem) :
    isSerError (TfIdfWeight.unserialise s) = true ↔ exactLayout s = false := by
  rcases s with _ | ⟨x1 | b1, _ | ⟨x2 | b2, _ | ⟨x3 | b3, _ | ⟨x4 | b4,
    _ | ⟨x5 | b5, _ | ⟨i6, rest⟩⟩⟩⟩⟩⟩ <;>
    simp [TfIdfWeight.unserialise, exactLayout, isSerError] <;>
    unfold TfIdfWeight.ofEnum <;>
    split_ifs <;>
    simp [isSerError]

theorem get_wdfn_le_bound (w : TfIdfWeight) (st : Stats) (tag wdf doclen uniqterms : ℕ)
    (h1 : wdf ≤ st.wdf_upper_bound)
    (h2 : st.doclength_lower_bound ≤ doclen)
    (h3 : uniqterms ≤ doclen)
    (hd : 0 < w.param_delta)
    (hs0 : 0 < w.param_slope)
    (hpiv : tag = wdf_norm.PIVOTED → (w.param_slope < 1 ∧ 0 < st.average_length)) :
    TfIdfWeight.get_wdfn w st wdf doclen uniqterms tag ≤
      TfIdfWeight.get_wdfn w st st.wdf_upper_bound st.doclength_lower_bound
        st.doclength_lower_bound tag := by
  unfold TfIdfWeight.get_wdfn
  by_cases hB : tag = wdf_norm.BOOLEAN
  · simp only [if_pos hB]
    by_cases hw0 : wdf = 0
    · simp only [if_pos hw0]
      split <;> norm_num
    · have hub : st.wdf_upper_bound ≠ 0 := by omega
      simp only [if_neg hw0, if_neg hub]
      exact le_refl 1
  · simp only [if_neg hB]
    by_cases hS : tag = wdf_norm.SQUARE
    · simp only [if_pos hS]
      exact_mod_cast Nat.mul_le_mul h1 h1
    · simp only [if_neg hS]
      by_cases hL : tag = wdf_norm.LOG
      · simp only [if_pos hL]
        by_cases hw0 : wdf = 0
        · simp only [if_pos hw0]
          by_cases hub : st.wdf_upper_bound = 0
          · simp only [if_pos hub]
            exact le_refl 0
          · simp only [if_neg hub]
            have hub1 : (1 : ℝ) ≤ (st.wdf_upper_bound : ℝ) := by
              exact_mod_cast Nat.one_le_iff_ne_zero.mpr hub
            have := Real.log_nonneg hub1
            linarith
        · have hub : st.wdf_upper_bound ≠ 0 := by omega
          simp only [if_neg hw0, if_neg hub]
          have hw1 : (0 : ℝ) < (wdf : ℝ) := by
            exact_mod_cast Nat.pos_of_ne_zero hw0
          have hcast : (wdf : ℝ) ≤ (st.wdf_upper_bound : ℝ) := by exact_mod_cast h1
          have := Real.log_le_log hw1 hcast
          linarith
      · simp only [if_neg hL]
        by_cases hP : tag = wdf_norm.PIVOTED
        · simp only [if_pos hP]
          obtain ⟨hs1, havg⟩ := hpiv hP
          have hs0' : (0 : ℝ) < (w.param_slope : ℝ) := by exact_mod_cast hs0
          have hs1' : (w.param_slope : ℝ) < 1 := by exact_mod_cast hs1
          have havg' : (0 : ℝ) < (st.average_length : ℝ) := by exact_mod_cast havg
          have hdpos : (0 : ℝ) < (w.param_delta : ℝ) := by exact_mod_cast hd
          have hden : ∀ d : ℕ, 0 < 1 - (w.param_slope : ℝ) +
              (w.param_slope : ℝ) * ((d : ℝ) / (st.average_length : ℝ)) := by
            intro d
            have hdiv : 0 ≤ (d : ℝ) / (st.average_length : ℝ) :=
              div_nonneg (Nat.cast_nonneg d) havg'.le
            have := mul_nonneg hs0'.le hdiv
            linarith
          have hdenmono : 1 - (w.param_slope : ℝ) + (w.param_slope : ℝ) *
                ((st.doclength_lower_bound : ℝ) / (st.average_length : ℝ)) ≤
              1 - (w.param_slope : ℝ) + (w.param_slope : ℝ) *
                ((doclen : ℝ) / (st.average_length : ℝ)) := by
            have hdm : (st.doclength_lower_bound : ℝ) / (st.average_length : ℝ) ≤
                (doclen : ℝ) / (st.average_length : ℝ) :=
              (div_le_div_iff_of_pos_right havg').mpr (by exact_mod_cast h2)
            have := mul_le_mul_of_nonneg_left hdm hs0'.le
            linarith
          have hnf_mono : 1 / (1 - (w.param_slope : ℝ) + (w.param_slope : ℝ) *
                ((doclen : ℝ) / (st.average_length : ℝ))) ≤
              1 / (1 - (w.param_slope : ℝ) + (w.param_slope : ℝ) *
                ((st.doclength_lower_bound : ℝ) / (st.average_length : ℝ))) :=
            one_div_le_one_div_of_le (hden st.doclength_lower_bound) hdenmono
          by_cases hw0 : wdf = 0
          · simp only [if_pos hw0]
            by_cases hub : st.wdf_upper_bound = 0
            · simp only [if_pos hub]
              exact le_refl 0
            · simp only [if_neg hub]
              have hub1 : (1 : ℝ) ≤ (st.wdf_upper_bound : ℝ) := by
                exact_mod_cast Nat.one_le_iff_ne_zero.mpr hub
              have hlogub := Real.log_nonneg hub1
              have hA : (1 : ℝ) ≤ 1 + Real.log (1 + Real.log (st.wdf_upper_bound : ℝ)) := by
                have := Real.log_nonneg (by linarith :
                  (1 : ℝ) ≤ 1 + Real.log (st.wdf_upper_bound : ℝ))
                linarith
              have hnfpos : 0 < 1 / (1 - (w.param_slope : ℝ) + (w.param_slope : ℝ) *
                  ((st.doclength_lower_bound : ℝ) / (st.average_length : ℝ))) :=
                one_div_pos.mpr (hden st.doclength_lower_bound)
              nlinarith
          · have hub : st.wdf_upper_bound ≠ 0 := by omega
            simp only [if_neg hw0, if_neg hub]
            have hw1 : (1 : ℝ) ≤ (wdf : ℝ) := by
              exact_mod_cast Nat.one_le_iff_ne_zero.mpr hw0
            have hlogw := Real.log_nonneg hw1
            have hcast : (wdf : ℝ) ≤ (st.wdf_upper_bound : ℝ) := by exact_mod_cast h1
            have hlmono : Real.log (wdf : ℝ) ≤ Real.log (st.wdf_upper_bound : ℝ) :=
              Real.log_le_log (by linarith) hcast
            have hAmono : 1 + Real.log (1 + Real.log (wdf : ℝ)) ≤
                1 + Real.log (1 + Real.log (st.wdf_upper_bound : ℝ)) := by
              have hstep : (1 : ℝ) + Real.log (wdf : ℝ) ≤
                  1 + Real.log (st.wdf_upper_bound : ℝ) := by linarith
              have := Real.log_le_log
                (by linarith : (0 : ℝ) < 1 + Real.log (wdf : ℝ)) hstep
              linarith
            have hApos : (0 : ℝ) ≤ 1 + Real.log (1 + Real.log (wdf : ℝ)) := by
              have := Real.log_nonneg (by linarith : (1 : ℝ) ≤ 1 + Real.log (wdf : ℝ))
              linarith
            have hABpos : (0 : ℝ) ≤ 1 + Real.log (1 + Real.log (st.wdf_upper_bound : ℝ)) :=
              le_trans hApos hAmono
            have hnfD : 0 ≤ 1 / (1 - (w.param_slope : ℝ) + (w.param_slope : ℝ) *
                ((doclen : ℝ) / (st.average_length : ℝ))) :=
              (one_div_pos.mpr (hden doclen)).le
            have := mul_le_mul hAmono hnf_mono hnfD hABpos
            linarith
        · simp only [if_neg hP]
          by_cases hLA : tag = wdf_norm.LOG_AVERAGE
          · simp only [if_pos hLA]
            have hwavg1 : (if (st.doclength_lower_bound : ℝ) = 0 ∨
                  (st.doclength_lower_bound : ℝ) = 0 then (1 : ℝ)
                else (st.doclength_lower_bound : ℝ) / (st.doclength_lower_bound : ℝ)) = 1 := by
              by_cases hl : (st.doclength_lower_bound : ℝ) = 0
              · rw [if_pos (Or.inl hl)]
              · rw [if_neg (by tauto), div_self hl]
            by_cases hw0 : wdf = 0
            · simp only [if_pos hw0]
              by_cases hub : st.wdf_upper_bound = 0
              · simp only [if_pos hub]
                exact le_refl 0
              · simp only [if_neg hub]
                rw [hwavg1, Real.log_one, add_zero, div_one]
                have hub1 : (1 : ℝ) ≤ (st.wdf_upper_bound : ℝ) := by
                  exact_mod_cast Nat.one_le_iff_ne_zero.mpr hub
                have := Real.log_nonneg hub1
                linarith
            · have hub : st.wdf_upper_bound ≠ 0 := by omega
              simp only [if_neg hw0, if_neg hub]
              rw [hwavg1, Real.log_one, add_zero, div_one]
              have hw1 : (1 : ℝ) ≤ (wdf : ℝ) := by
                exact_mod_cast Nat.one_le_iff_ne_zero.mpr hw0
              have hlogw := Real.log_nonneg hw1
              have hlmono : Real.log (wdf : ℝ) ≤ Real.log (st.wdf_upper_bound : ℝ) :=
                Real.log_le_log (by linarith) (by exact_mod_cast h1)
              have hwavgd : (1 : ℝ) ≤ (if (doclen : ℝ) = 0 ∨ (uniqterms : ℝ) = 0
                  then (1 : ℝ) else (doclen : ℝ) / (uniqterms : ℝ)) := by
                by_cases hcond : (doclen : ℝ) = 0 ∨ (uniqterms : ℝ) = 0
                · rw [if_pos hcond]
                · rw [if_neg hcond]
                  push_neg at hcond
                  have hu0 : (0 : ℝ) < (uniqterms : ℝ) := by
                    rcases Nat.eq_zero_or_pos uniqterms with h | h
                    · exact absurd (by exact_mod_cast congrArg Nat.cast h) hcond.2
                    · exact_mod_cast h
                  exact (one_le_div hu0).mpr (by exact_mod_cast h3)
              have hden1 : (1 : ℝ) ≤ 1 + Real.log (if (doclen : ℝ) = 0 ∨
                  (uniqterms : ℝ) = 0 then (1 : ℝ) else (doclen : ℝ) / (uniqterms : ℝ)) := by
                have := Real.log_nonneg hwavgd
                linarith
              calc (1 + Real.log (wdf : ℝ)) / (1 + Real.log (if (doclen : ℝ) = 0 ∨
                    (uniqterms : ℝ) = 0 then (1 : ℝ) else (doclen : ℝ) / (uniqterms : ℝ)))
                  ≤ 1 + Real.log (wdf : ℝ) := div_le_self (by linarith) hden1
                _ ≤ 1 + Real.log (st.wdf_upper_bound : ℝ) := by linarith
          · simp only [if_neg hLA]
            exact_mod_cast h1

/-- C1 counterexample: with idf Probabilistic, termfreq 3 of
collection_size 4 (idfn = ln(1/3) < 0), wdf None, slope 1, delta 1, after
init with factor 1, get_maxpart (evaluated at wdf_upper_bound 2) is
strictly below get_sumpart at the in-bounds triple (1, 0, 0), violating
the claimed invariant. -/
theorem C1_counterexample :
    TfIdfWeight.get_maxpart probWeight probRState probStats <
      TfIdfWeight.get_sumpart probWeight probRState probStats 1 0 0 := by
  have hidfn : probRState.idfn = Real.log ((((4 : ℕ) : ℝ) - ((3 : ℕ) : ℝ)) / ((3 : ℕ) : ℝ)) := by
    unfold probRState TfIdfWeight.init
    rw [if_neg one_ne_zero]
    show TfIdfWeight.get_idfn probStats idf_norm.PROB = _
    have hred : TfIdfWeight.get_idfn probStats idf_norm.PROB =
        (if ((4 : ℕ) : ℝ) = ((3 : ℕ) : ℝ) then 0
         else Real.log ((((4 : ℕ) : ℝ) - ((3 : ℕ) : ℝ)) / ((3 : ℕ) : ℝ))) := rfl
    rw [hred, if_neg (by norm_num)]
  have hwqf : probRState.wqf_factor = 1 := by
    unfold probRState TfIdfWeight.init
    rw [if_neg one_ne_zero]
    show ((probStats.wqf : ℕ) : ℝ) * 1 = 1
    norm_num [probStats]
  have hmax : TfIdfWeight.get_maxpart probWeight probRState probStats =
      ((2 : ℕ) : ℝ) * probRState.idfn * probRState.wqf_factor := rfl
  have hsum : TfIdfWeight.get_sumpart probWeight probRState probStats 1 0 0 =
      ((1 : ℕ) : ℝ) * probRState.idfn * probRState.wqf_factor := rfl
  rw [hmax, hsum, hidfn, hwqf]
  have hlog : Real.log ((((4 : ℕ) : ℝ) - ((3 : ℕ) : ℝ)) / ((3 : ℕ) : ℝ)) < 0 := by
    apply Real.log_neg <;> norm_num
  push_cast
  linarith

/-- C1 (amended): after init with a positive factor, get_maxpart bounds
get_sumpart on every triple with wdf ≤ wdf_upper_bound,
doclen ≥ doclength_lower_bound and unique_terms ≤ doclen, provided the
computed idf normalisation is nonnegative (Probabilistic idf violates this
when the term is in more than half the documents) and, for the Pivoted wdf
variant, slope < 1 and a positive average length. -/
theorem C1_maxpart_bounds_sumpart (w : TfIdfWeight) (st : Stats) (factor : ℝ)
    (wdf doclen uniqterms : ℕ)
    (hs : 0 < w.param_slope) (hd : 0 < w.param_delta)
    (hf : 0 < factor)
    (hidf : 0 ≤ TfIdfWeight.get_idfn st w.idf_norm_)
    (hpiv : w.wdf_norm_ = wdf_norm.PIVOTED →
      (w.param_slope < 1 ∧ 0 < st.average_length))
    (h1 : wdf ≤ st.wdf_upper_bound)
    (h2 : st.doclength_lower_bound ≤ doclen)
    (h3 : uniqterms ≤ doclen) :
    TfIdfWeight.get_sumpart w (TfIdfWeight.init w st factor initRState) st wdf
        doclen uniqterms ≤
      TfIdfWeight.get_maxpart w (TfIdfWeight.init w st factor initRState) st := by
  unfold TfIdfWeight.get_sumpart TfIdfWeight.get_maxpart TfIdfWeight.get_wtn
    TfIdfWeight.init
  rw [if_neg (ne_of_gt hf)]
  apply mul_le_mul_of_nonneg_right
  · apply mul_le_mul_of_nonneg_right
    · exact get_wdfn_le_bound w st w.wdf_norm_ wdf doclen uniqterms h1 h2 h3 hd hs hpiv
    · exact hidf
  · exact mul_nonneg (Nat.cast_nonneg _) hf.le

/-- C1 witness: the amended bound at the wdf None / idf None configuration
with concrete statistics and factor 1. -/
theorem C1_maxpart_bounds_sumpart_witness :
    TfIdfWeight.get_sumpart noneWeight
        (TfIdfWeight.init noneWeight probStats 1 initRState) probStats 0 0 0 ≤
      TfIdfWeight.get_maxpart noneWeight
        (TfIdfWeight.init noneWeight probStats 1 initRState) probStats :=
  C1_maxpart_bounds_sumpart noneWeight probStats 1 0 0 0 (by decide) (by decide)
    one_pos
    (by
      have h : TfIdfWeight.get_idfn probStats noneWeight.idf_norm_ = 1 := rfl
      rw [h]
      exact zero_le_one)
    (by decide) (by decide) (by decide) (by decide)
